import Mathlib

/-!
Verification of the pose-estimation and smoothing pipeline of
`ros2_aruco/aruco_node.py` (class `ArucoNode`).

The numeric code (positions, quaternions) is modelled over the exact reals.
External collaborators (the ArUco detector, `cv2.solvePnP`, `cv2.Rodrigues`
composed with `tf_transformations.quaternion_from_matrix`) are oracles passed
as parameters: the pipeline only forwards their outputs.
`tf_transformations.quaternion_slerp` is pure quaternion arithmetic and is
embedded in full.
-/

/-- A 3-vector of reals: a marker position (`tvec` reshaped to shape (3,)). -/
structure Vec3 where
  x : ℝ
  y : ℝ
  z : ℝ

/-- A quaternion as the 4-vector (x, y, z, w), the convention used by
`tf_transformations`. -/
structure Quat where
  x : ℝ
  y : ℝ
  z : ℝ
  w : ℝ

namespace Quat

/-- `numpy.dot` on two length-4 arrays. -/
noncomputable def dot (a b : Quat) : ℝ := a.x * b.x + a.y * b.y + a.z * b.z + a.w * b.w

/-- Componentwise sum (`q0 += q1`). -/
noncomputable def add (a b : Quat) : Quat := ⟨a.x + b.x, a.y + b.y, a.z + b.z, a.w + b.w⟩

/-- Scalar multiple (`q0 *= c`). -/
noncomputable def smul (c : ℝ) (a : Quat) : Quat := ⟨c * a.x, c * a.y, c * a.z, c * a.w⟩

/-- `numpy.negative(q1, q1)`: componentwise negation. -/
noncomputable def neg (a : Quat) : Quat := ⟨-a.x, -a.y, -a.z, -a.w⟩

/-- `numpy.linalg.norm` of the 4-vector: the Euclidean norm. -/
noncomputable def norm (a : Quat) : ℝ := Real.sqrt (dot a a)

/-- The all-zero quaternion (the junk value of an empty blend). -/
noncomputable def zero : Quat := ⟨0, 0, 0, 0⟩

end Quat

/-- `tf_transformations._EPS = numpy.finfo(float64).eps * 4.0 = 2 ^ (-50)`. -/
noncomputable def EPS : ℝ := 4 / 2 ^ 52

/-- `tf_transformations.unit_vector`: divide by the Euclidean norm
(`data / sqrt(numpy.dot(data, data))`). -/
noncomputable def unit_vector (q : Quat) : Quat := Quat.smul (1 / Quat.norm q) q

/-- `tf_transformations.quaternion_slerp(quat0, quat1, fraction)` with the
defaults `spin=0` (so the `spin * pi` term vanishes) and `shortestpath=True`.
Embeds every branch of the library function. -/
noncomputable def quaternion_slerp (quat0 quat1 : Quat) (fraction : ℝ) : Quat :=
  let q0 := unit_vector quat0
  let q1 := unit_vector quat1
  if fraction = 0 then q0
  else if fraction = 1 then q1
  else
    let d := Quat.dot q0 q1
    if |(|d|) - 1| < EPS then q0
    else
      let d2 := if d < 0 then -d else d
      let q1b := if d < 0 then Quat.neg q1 else q1
      let angle := Real.arccos d2
      if |angle| < EPS then q0
      else
        Quat.add (Quat.smul (Real.sin ((1 - fraction) * angle) / Real.sin angle) q0)
          (Quat.smul (Real.sin (fraction * angle) / Real.sin angle) q1b)

/-- Lines 252-256 of `aruco_node.py`: `avg_quat = quats[0]`, then for each later
quaternion in window order `avg_quat = quaternion_slerp(avg_quat, q, 0.5)`.
(The guard `len(quats) > 1` is the empty fold.)  The `[]` case is unreachable
in the pipeline (the history was just appended to); its value is junk. -/
noncomputable def blendQuats : List Quat → Quat
  | [] => Quat.zero
  | q :: rest => rest.foldl (fun acc q2 => quaternion_slerp acc q2 (1 / 2)) q

/-- Line 257 of `aruco_node.py`: `avg_quat = avg_quat / np.linalg.norm(avg_quat)`. -/
noncomputable def renormalize (q : Quat) : Quat := Quat.smul (1 / Quat.norm q) q

/-- The full orientation smoothing: cascaded slerp then renormalization. -/
noncomputable def smoothQuat (qs : List Quat) : Quat := renormalize (blendQuats qs)

/-- Line 249 of `aruco_node.py`: `np.mean([p[0] for p in poses], axis=0)`,
the componentwise arithmetic mean. -/
noncomputable def meanPosition (ps : List Vec3) : Vec3 :=
  ⟨(ps.map Vec3.x).sum / ps.length, (ps.map Vec3.y).sum / ps.length,
    (ps.map Vec3.z).sum / ps.length⟩

/-- The Pose Smoother of the spec: reduce one marker's history window (a list
of `(position, quat)` tuples, oldest first, as stored in `pose_history`) to
one averaged pose, exactly as lines 248-257 of `aruco_node.py` do. -/
noncomputable def smooth (window : List (Vec3 × Quat)) : Vec3 × Quat :=
  (meanPosition (window.map Prod.fst), smoothQuat (window.map Prod.snd))

/-- The fields of `sensor_msgs/CameraInfo` the node reads: `k` (the 3x3
intrinsic matrix in row-major order — `np.reshape` to (3,3) keeps the data),
`d` (the distortion coefficients) and the header's frame id. -/
structure CameraInfo where
  k : List ℝ
  d : List ℝ
  frame_id : String

/-- `geometry_msgs/Pose` as populated at lines 260-262 of `aruco_node.py`. -/
structure Pose where
  position : Vec3
  orientation : Quat

/-- `geometry_msgs/PoseArray` as published on `aruco_poses`: header plus poses. -/
structure PoseArray where
  frame_id : String
  stamp : Nat
  poses : List Pose

/-- `ros2_aruco_interfaces/ArucoMarkers` as published on `aruco_markers`:
header, poses, and one marker id per pose. -/
structure ArucoMarkers where
  frame_id : String
  stamp : Nat
  poses : List Pose
  marker_ids : List ℤ

/-- `collections.deque(maxlen=maxlen).append`: append at the tail, keep only
the last `maxlen` entries (when not yet at capacity the drop removes nothing). -/
def dequeAppend {α : Type} (maxlen : Nat) (buf : List α) (x : α) : List α :=
  let b := buf ++ [x]
  b.drop (b.length - maxlen)

/-- `push(markerId, pose)` iterated: a whole sequence of pushes into one
marker's bounded deque, oldest first. -/
def pushAll {α : Type} (maxlen : Nat) (buf : List α) (xs : List α) : List α :=
  xs.foldl (dequeAppend maxlen) buf

/-- The mutable state of `ArucoNode` that the two callbacks touch.
`info_sub_alive` models whether `self.info_sub` still exists (it is destroyed
in `info_callback`); `pose_history` models the `defaultdict` of deques, a
missing key mapping to the empty buffer. -/
structure NodeState where
  last_publish_time : Nat
  marker_size : ℝ
  camera_frame : String
  info_msg : Option CameraInfo
  intrinsic_mat : Option (List ℝ)
  distortion : Option (List ℝ)
  window_size : Nat
  pose_history : ℤ → List (Vec3 × Quat)
  info_sub_alive : Bool

/-- `ArucoNode.__init__`: no calibration yet, the camera-info subscription
alive, `window_size = 2`, and an empty history for every marker id. -/
def arucoNodeInit (t0 : Nat) (marker_size : ℝ) (camera_frame : String) : NodeState :=
  { last_publish_time := t0
    marker_size := marker_size
    camera_frame := camera_frame
    info_msg := none
    intrinsic_mat := none
    distortion := none
    window_size := 2
    pose_history := fun _ => []
    info_sub_alive := true }

/-- `ArucoNode.info_callback`: store the message, derive the intrinsic matrix
and distortion from it, and destroy the subscription (lines 161-166). -/
def info_callback (s : NodeState) (info_msg : CameraInfo) : NodeState :=
  { s with
    info_msg := some info_msg
    intrinsic_mat := some info_msg.k
    distortion := some info_msg.d
    info_sub_alive := false }

/-- Lines 204-209 of `aruco_node.py`: the marker's four corners in its local
frame, a square of side `marker_size` centred at the origin in the z = 0
plane, in the fixed winding order of the source. -/
noncomputable def objPoints (marker_size : ℝ) : List Vec3 :=
  [⟨-marker_size / 2, marker_size / 2, 0⟩, ⟨marker_size / 2, marker_size / 2, 0⟩,
    ⟨marker_size / 2, -marker_size / 2, 0⟩, ⟨-marker_size / 2, -marker_size / 2, 0⟩]

/-- The body of the marker loop (lines 230-266 of `aruco_node.py`), one
iteration: `x` is the i-th `(corners, marker_id)` pair together with the i-th
`(retval, rvec, tvec)` solver result, `acc` carries the `pose_history` map and
the three lists appended to (`pose_array.poses`, `markers.poses`,
`markers.marker_ids`).  A marker id other than 1 is skipped (`continue`)
before anything else happens; `retval` (`x.2.1`) is never consulted, exactly
as in the source. -/
noncomputable def processMarker {Corners RVec : Type} (rodriguesQuat : RVec → Quat)
    (window_size : Nat)
    (acc : (ℤ → List (Vec3 × Quat)) × List Pose × List Pose × List ℤ)
    (x : (Corners × ℤ) × (Bool × RVec × Vec3)) :
    (ℤ → List (Vec3 × Quat)) × List Pose × List Pose × List ℤ :=
  let marker_id := x.1.2
  if marker_id ≠ 1 then acc
  else
    let position := x.2.2.2
    let quat := rodriguesQuat x.2.2.1
    let hist := dequeAppend window_size (acc.1 marker_id) (position, quat)
    let hist_map : ℤ → List (Vec3 × Quat) :=
      fun id => if id = marker_id then hist else acc.1 id
    let avg_position := meanPosition (hist.map Prod.fst)
    let avg_quat := smoothQuat (hist.map Prod.snd)
    let pose : Pose := ⟨avg_position, avg_quat⟩
    (hist_map, acc.2.1 ++ [pose], acc.2.2.1 ++ [pose], acc.2.2.2 ++ [marker_id])

/-- `ArucoNode.image_callback` (lines 169-280), over three oracles for the
external collaborators:
* `detect` models `self.aruco_detector.detectMarkers`: `none` when
  `marker_ids is None`, otherwise the parallel `corners` and `marker_ids`
  sequences as a list of pairs (they always have equal length, which the
  pairing encodes; the per-marker `marker_id[0]` unwrap is folded in);
* `solvePnP` models `cv2.solvePnP(obj_points, img_points, intrinsic_mat,
  distortion) -> (retval, rvec, tvec)`, the `tvec` already reshaped to (3,);
* `rodriguesQuat` models `tf_transformations.quaternion_from_matrix` of the
  4x4 matrix whose rotation block is `cv2.Rodrigues(rvec)`.
Returns the new state and, when the node publishes, the `PoseArray` and
`ArucoMarkers` messages published on `aruco_poses` and `aruco_markers`
(one atomic pair per frame, `none` when nothing is published).
The fold's accumulator carries (`pose_history`, `pose_array.poses`,
`markers.poses`, `markers.marker_ids`), each appended exactly as in the
source loop; `cv2.__version__ > "4.0.0"` holds, so the `solvePnP` branch of
the version test is the one embedded. -/
noncomputable def image_callback {Img Corners RVec : Type}
    (detect : Img → Option (List (Corners × ℤ)))
    (solvePnP : List Vec3 → Corners → Option (List ℝ) → Option (List ℝ) → Bool × RVec × Vec3)
    (rodriguesQuat : RVec → Quat)
    (s : NodeState) (current_time : Nat) (stamp : Nat) (img_msg : Img) :
    NodeState × Option (PoseArray × ArucoMarkers) :=
  match s.info_msg with
  | none => (s, none)
  | some info =>
    let s1 : NodeState := { s with last_publish_time := current_time }
    let frame_id := if s1.camera_frame = "" then info.frame_id else s1.camera_frame
    match detect img_msg with
    | none => (s1, none)
    | some dets =>
      let solved := dets.map (fun det =>
        solvePnP (objPoints s1.marker_size) det.1 s1.intrinsic_mat s1.distortion)
      let final := (dets.zip solved).foldl (processMarker rodriguesQuat s1.window_size)
        (s1.pose_history, ([], [], []))
      let pose_array : PoseArray := ⟨frame_id, stamp, final.2.1⟩
      let markers : ArucoMarkers := ⟨frame_id, stamp, final.2.2.1, final.2.2.2⟩
      ({ s1 with pose_history := final.1 }, some (pose_array, markers))

/-- An input delivered to the node: a camera-info message or an image frame
(with the clock value at processing time and the image header stamp). -/
inductive NodeEvent (Img : Type) where
  | info (msg : CameraInfo)
  | image (t : Nat) (stamp : Nat) (img : Img)

/-- One delivered event. A camera-info message reaches `info_callback` only
while the subscription is alive (it is destroyed on first receipt). -/
noncomputable def nodeStep {Img Corners RVec : Type}
    (detect : Img → Option (List (Corners × ℤ)))
    (solvePnP : List Vec3 → Corners → Option (List ℝ) → Option (List ℝ) → Bool × RVec × Vec3)
    (rodriguesQuat : RVec → Quat)
    (s : NodeState) : NodeEvent Img → NodeState
  | NodeEvent.info msg => if s.info_sub_alive then info_callback s msg else s
  | NodeEvent.image t stamp img =>
    (image_callback detect solvePnP rodriguesQuat s t stamp img).1

/-- The node driven by a sequence of events, in order. -/
noncomputable def nodeRun {Img Corners RVec : Type}
    (detect : Img → Option (List (Corners × ℤ)))
    (solvePnP : List Vec3 → Corners → Option (List ℝ) → Option (List ℝ) → Bool × RVec × Vec3)
    (rodriguesQuat : RVec → Quat)
    (s : NodeState) (evs : List (NodeEvent Img)) : NodeState :=
  evs.foldl (nodeStep detect solvePnP rodriguesQuat) s

/-- Dropping to the last `n` elements, appending, and dropping to the last `n`
again gives the same as appending first: the bounded deque forgets nothing it
was going to keep anyway. -/
lemma drop_to_last_append {α : Type} (n : Nat) (l m : List α) :
    (l.drop (l.length - n) ++ m).drop ((l.drop (l.length - n) ++ m).length - n)
      = (l ++ m).drop ((l ++ m).length - n) := by
  rw [← List.drop_append_of_le_length (Nat.sub_le l.length n), List.drop_drop]
  congr 1
  simp only [List.length_drop, List.length_append]
  omega

/-- A sequence of pushes into a bounded deque that starts within capacity
leaves exactly the last `n` elements of everything ever pushed
(`Nat` subtraction truncates, so within capacity nothing is dropped). -/
lemma pushAll_eq_drop {α : Type} (n : Nat) (xs : List α) :
    ∀ buf : List α, buf.length ≤ n →
      pushAll n buf xs = (buf ++ xs).drop ((buf ++ xs).length - n) := by
  induction xs with
  | nil =>
    intro buf h
    have h0 : buf.length - n = 0 := Nat.sub_eq_zero_of_le h
    simp [pushAll, h0]
  | cons x xs ih =>
    intro buf h
    have hstep : pushAll n buf (x :: xs) = pushAll n (dequeAppend n buf x) xs := rfl
    have hda : dequeAppend n buf x = (buf ++ [x]).drop ((buf ++ [x]).length - n) := rfl
    have hlen : (dequeAppend n buf x).length ≤ n := by
      simp only [hda, List.length_drop, List.length_append]
      omega
    rw [hstep, ih _ hlen, hda, drop_to_last_append]
    simp

/-- C5: pushing N > windowSize poses into one marker's history buffer leaves
exactly windowSize entries, and they are the last windowSize pushed poses in
push order (FIFO eviction of the oldest). -/
theorem history_buffer_fifo {α : Type} (windowSize : Nat) (xs : List α)
    (h : windowSize < xs.length) :
    (pushAll windowSize [] xs).length = windowSize ∧
      pushAll windowSize [] xs = xs.drop (xs.length - windowSize) := by
  have key := pushAll_eq_drop windowSize xs [] (by simp)
  simp only [List.nil_append] at key
  refine ⟨?_, key⟩
  rw [key]
  simp only [List.length_drop]
  omega

theorem history_buffer_fifo_witness :
    2 < ([10, 20, 30] : List Nat).length ∧
      ((pushAll 2 [] ([10, 20, 30] : List Nat)).length = 2 ∧
        pushAll 2 [] ([10, 20, 30] : List Nat)
          = ([10, 20, 30] : List Nat).drop (([10, 20, 30] : List Nat).length - 2)) :=
  ⟨by decide, history_buffer_fifo 2 [10, 20, 30] (by decide)⟩

/-- A frame processed while `info_msg` is still `None` is dropped whole:
the callback returns at once, publishing nothing and changing nothing. -/
lemma image_callback_of_info_none {Img Corners RVec : Type}
    (detect : Img → Option (List (Corners × ℤ)))
    (solvePnP : List Vec3 → Corners → Option (List ℝ) → Option (List ℝ) → Bool × RVec × Vec3)
    (rodriguesQuat : RVec → Quat)
    (s : NodeState) (t stamp : Nat) (img : Img) (h : s.info_msg = none) :
    image_callback detect solvePnP rodriguesQuat s t stamp img = (s, none) := by
  unfold image_callback
  rw [h]

/-- C3 counterexample: a concrete frame arriving before any calibration
update.  The claim says an empty output batch is emitted; in fact the
callback returns before building any message, so nothing is published at all
(the second component is `none`, not `some` of an empty batch). -/
theorem awaiting_calibration_emits_no_batch :
    (image_callback (fun _ : Unit => (none : Option (List (Unit × ℤ))))
        (fun _ _ _ _ => (true, (), (⟨0, 0, 0⟩ : Vec3)))
        (fun _ : Unit => (⟨0, 0, 0, 1⟩ : Quat))
        (arucoNodeInit 0 1 "") 5 7 ()).2 = none := by
  rw [image_callback_of_info_none _ _ _ _ _ _ _ rfl]

/-- C3 amended: a frame that arrives while no calibration update has been
received is dropped entirely — the callback raises no error, publishes no
batch (empty or otherwise), and leaves the whole state, in particular every
history buffer, unchanged. -/
theorem awaiting_calibration_drops_frame {Img Corners RVec : Type}
    (detect : Img → Option (List (Corners × ℤ)))
    (solvePnP : List Vec3 → Corners → Option (List ℝ) → Option (List ℝ) → Bool × RVec × Vec3)
    (rodriguesQuat : RVec → Quat)
    (s : NodeState) (t stamp : Nat) (img : Img) (h : s.info_msg = none) :
    image_callback detect solvePnP rodriguesQuat s t stamp img = (s, none) :=
  image_callback_of_info_none detect solvePnP rodriguesQuat s t stamp img h

theorem awaiting_calibration_drops_frame_witness :
    (arucoNodeInit 0 1 "").info_msg = none ∧
      image_callback (fun _ : Unit => (none : Option (List (Unit × ℤ))))
        (fun _ _ _ _ => (true, (), (⟨0, 0, 0⟩ : Vec3)))
        (fun _ : Unit => (⟨0, 0, 0, 1⟩ : Quat))
        (arucoNodeInit 0 1 "") 5 7 () = (arucoNodeInit 0 1 "", none) :=
  ⟨rfl, awaiting_calibration_drops_frame _ _ _ _ _ _ _ rfl⟩

/-- C6 counterexample: a calibrated node and a frame in which the detector
reports zero markers (`marker_ids is None`).  The claim says a batch is
emitted for every Ready frame including this one; in fact both publishes sit
inside `if marker_ids is not None`, so nothing is emitted. -/
theorem zero_marker_frame_emits_nothing :
    (image_callback (fun _ : Unit => (none : Option (List (Unit × ℤ))))
        (fun _ _ _ _ => (true, (), (⟨0, 0, 0⟩ : Vec3)))
        (fun _ : Unit => (⟨0, 0, 0, 1⟩ : Quat))
        (info_callback (arucoNodeInit 0 1 "") ⟨[], [], "cam"⟩) 5 7 ()).2 = none := rfl

/-- C6 amended: exactly one (atomic, possibly empty) output batch is emitted
for a frame precisely when the node is calibrated and the detector reports a
non-null marker list; a Ready frame in which the detector reports zero
markers (a null `marker_ids`) emits nothing. -/
theorem batch_emitted_iff_detector_reports {Img Corners RVec : Type}
    (detect : Img → Option (List (Corners × ℤ)))
    (solvePnP : List Vec3 → Corners → Option (List ℝ) → Option (List ℝ) → Bool × RVec × Vec3)
    (rodriguesQuat : RVec → Quat)
    (s : NodeState) (t stamp : Nat) (img : Img) :
    (image_callback detect solvePnP rodriguesQuat s t stamp img).2.isSome
      = (s.info_msg.isSome && (detect img).isSome) := by
  unfold image_callback
  rcases hmsg : s.info_msg with _ | info
  · rfl
  · rcases hdet : detect img with _ | dets <;> simp [hdet]

/-- One loop iteration never touches the history buffer of a marker id other
than 1 (the hard-coded allow-list): ids other than 1 are skipped before the
push, and a processed marker pushes only to its own buffer. -/
lemma processMarker_hist_ne {Corners RVec : Type} (rodriguesQuat : RVec → Quat)
    (w : Nat) (acc : (ℤ → List (Vec3 × Quat)) × List Pose × List Pose × List ℤ)
    (x : (Corners × ℤ) × (Bool × RVec × Vec3)) (id : ℤ) (h : id ≠ 1) :
    (processMarker rodriguesQuat w acc x).1 id = acc.1 id := by
  unfold processMarker
  by_cases hx : x.1.2 ≠ 1
  · simp [hx]
  · push_neg at hx
    simp [hx, h]

/-- The whole marker loop never touches the history buffer of an id ≠ 1. -/
lemma foldl_processMarker_hist_ne {Corners RVec : Type} (rodriguesQuat : RVec → Quat)
    (w : Nat) (l : List ((Corners × ℤ) × (Bool × RVec × Vec3))) (id : ℤ) (h : id ≠ 1) :
    ∀ acc, ((l.foldl (processMarker rodriguesQuat w) acc).1) id = acc.1 id := by
  induction l with
  | nil => intro acc; rfl
  | cons x xs ih =>
    intro acc
    rw [List.foldl_cons, ih, processMarker_hist_ne rodriguesQuat w acc x id h]

/-- C1 counterexample: a calibrated node sees a single detected marker with
id 2 and a successfully solved pose.  The claim demands that filtering only
affect emission, so marker 2's history buffer should afterwards hold the
pushed raw pose; in fact `if marker_id != 1: continue` runs before the push,
so the buffer stays empty — which a push (second conjunct) never leaves it. -/
theorem filter_updates_history_refuted :
    ((image_callback (fun _ : Unit => some [((), (2 : ℤ))])
          (fun _ _ _ _ => (true, (), (⟨0, 0, 0⟩ : Vec3)))
          (fun _ : Unit => (⟨0, 0, 0, 1⟩ : Quat))
          (info_callback (arucoNodeInit 0 1 "") ⟨[], [], "cam"⟩) 5 7 ()).1).pose_history 2
        = [] ∧
      dequeAppend 2 ([] : List (Vec3 × Quat)) (⟨0, 0, 0⟩, ⟨0, 0, 0, 1⟩) ≠ [] := by
  constructor
  · rfl
  · simp [dequeAppend]

/-- C1 amended: the allow-list filter (hard-coded to marker id 1) is applied
before pose extraction, before the history push and before smoothing — not
after smoothing.  A detected marker whose id is filtered out is therefore
omitted from history as well as from the output: processing any frame leaves
the history buffer of every id other than 1 exactly unchanged. -/
theorem filter_skips_history_for_other_ids {Img Corners RVec : Type}
    (detect : Img → Option (List (Corners × ℤ)))
    (solvePnP : List Vec3 → Corners → Option (List ℝ) → Option (List ℝ) → Bool × RVec × Vec3)
    (rodriguesQuat : RVec → Quat)
    (s : NodeState) (t stamp : Nat) (img : Img) (id : ℤ) (h : id ≠ 1) :
    ((image_callback detect solvePnP rodriguesQuat s t stamp img).1).pose_history id
      = s.pose_history id := by
  unfold image_callback
  rcases hmsg : s.info_msg with _ | info
  · rfl
  · rcases hdet : detect img with _ | dets
    · rfl
    · simp only []
      rw [foldl_processMarker_hist_ne rodriguesQuat s.window_size _ id h]

theorem filter_skips_history_for_other_ids_witness :
    ((2 : ℤ) ≠ 1) ∧
      ((image_callback (fun _ : Unit => some [((), (2 : ℤ))])
            (fun _ _ _ _ => (true, (), (⟨0, 0, 0⟩ : Vec3)))
            (fun _ : Unit => (⟨0, 0, 0, 1⟩ : Quat))
            (info_callback (arucoNodeInit 0 1 "") ⟨[], [], "cam"⟩) 5 7 ()).1).pose_history 2
        = (info_callback (arucoNodeInit 0 1 "") ⟨[], [], "cam"⟩).pose_history 2 :=
  ⟨by decide,
    filter_skips_history_for_other_ids _ _ _ _ 5 7 () 2 (by decide)⟩

/-- One loop iteration is oblivious to the solver's `retval`: the source
unpacks `retval, rvec, tvec` and never reads `retval` again. -/
lemma processMarker_retval_irrelevant {Corners RVec : Type} (rq : RVec → Quat) (w : Nat)
    (acc : (ℤ → List (Vec3 × Quat)) × List Pose × List Pose × List ℤ)
    (c : Corners × ℤ) (r1 r2 : Bool × RVec × Vec3) (h : r1.2 = r2.2) :
    processMarker rq w acc (c, r1) = processMarker rq w acc (c, r2) := by
  obtain ⟨b1, rv1, tv1⟩ := r1
  obtain ⟨b2, rv2, tv2⟩ := r2
  simp only [Prod.mk.injEq] at h
  obtain ⟨h1, h2⟩ := h
  subst h1
  subst h2
  rfl

/-- The whole marker loop gives the same result for two solvers that agree on
`(rvec, tvec)` whatever their success flags. -/
lemma foldl_processMarker_solver_eq {Corners RVec : Type} (rq : RVec → Quat) (w : Nat)
    (f1 f2 : Corners × ℤ → Bool × RVec × Vec3) (h : ∀ d, (f1 d).2 = (f2 d).2)
    (dets : List (Corners × ℤ)) :
    ∀ acc, (dets.zip (dets.map f1)).foldl (processMarker rq w) acc
      = (dets.zip (dets.map f2)).foldl (processMarker rq w) acc := by
  induction dets with
  | nil => intro acc; rfl
  | cons d ds ih =>
    intro acc
    simp only [List.map_cons, List.zip_cons_cons, List.foldl_cons]
    rw [processMarker_retval_irrelevant rq w acc d (f1 d) (f2 d) (h d)]
    exact ih _

/-- C2 counterexample: a calibrated node, one detected marker with the
allowed id 1, and a solver that reports failure (`retval = False`).  The
claim says the marker is then omitted from the output batch and from its
history buffer; in fact `retval` is never checked, so the pose is pushed
(first conjunct) and the marker is emitted (second conjunct). -/
theorem solver_failure_still_emitted :
    ((image_callback (fun _ : Unit => some [((), (1 : ℤ))])
          (fun _ _ _ _ => (false, (), (⟨0, 0, 0⟩ : Vec3)))
          (fun _ : Unit => (⟨0, 0, 0, 1⟩ : Quat))
          (info_callback (arucoNodeInit 0 1 "") ⟨[], [], "cam"⟩) 5 7 ()).1).pose_history 1
        = [(⟨0, 0, 0⟩, ⟨0, 0, 0, 1⟩)] ∧
      ((image_callback (fun _ : Unit => some [((), (1 : ℤ))])
          (fun _ _ _ _ => (false, (), (⟨0, 0, 0⟩ : Vec3)))
          (fun _ : Unit => (⟨0, 0, 0, 1⟩ : Quat))
          (info_callback (arucoNodeInit 0 1 "") ⟨[], [], "cam"⟩) 5 7 ()).2.map
        fun pm => pm.2.marker_ids) = some [(1 : ℤ)] := by
  constructor
  · rfl
  · rfl

/-- C2 amended: the solver's success flag is ignored — `retval` is unpacked
and never read, so the node's entire behavior (state and published batch) is
identical for any values of the flag; a marker whose solve "fails" is pushed
into history and emitted exactly like one whose solve succeeds. -/
theorem solver_retval_ignored {Img Corners RVec : Type}
    (detect : Img → Option (List (Corners × ℤ)))
    (sol1 sol2 : List Vec3 → Corners → Option (List ℝ) → Option (List ℝ) → Bool × RVec × Vec3)
    (rq : RVec → Quat) (s : NodeState) (t stamp : Nat) (img : Img)
    (h : ∀ op c im di, (sol1 op c im di).2 = (sol2 op c im di).2) :
    image_callback detect sol1 rq s t stamp img
      = image_callback detect sol2 rq s t stamp img := by
  unfold image_callback
  rcases hmsg : s.info_msg with _ | info
  · rfl
  · rcases hdet : detect img with _ | dets
    · rfl
    · simp only []
      rw [foldl_processMarker_solver_eq rq s.window_size
        (fun det => sol1 (objPoints s.marker_size) det.1 s.intrinsic_mat s.distortion)
        (fun det => sol2 (objPoints s.marker_size) det.1 s.intrinsic_mat s.distortion)
        (fun d => h _ _ _ _) dets]

theorem solver_retval_ignored_witness :
    (∀ (op : List Vec3) (c : Unit) (im di : Option (List ℝ)),
        ((fun (_ : List Vec3) (_ : Unit) (_ _ : Option (List ℝ)) =>
            (true, (), (⟨0, 0, 0⟩ : Vec3))) op c im di).2
          = ((fun (_ : List Vec3) (_ : Unit) (_ _ : Option (List ℝ)) =>
            (false, (), (⟨0, 0, 0⟩ : Vec3))) op c im di).2) ∧
      image_callback (fun _ : Unit => some [((), (1 : ℤ))])
          (fun (_ : List Vec3) (_ : Unit) (_ _ : Option (List ℝ)) =>
            (true, (), (⟨0, 0, 0⟩ : Vec3)))
          (fun _ : Unit => (⟨0, 0, 0, 1⟩ : Quat))
          (info_callback (arucoNodeInit 0 1 "") ⟨[], [], "cam"⟩) 5 7 ()
        = image_callback (fun _ : Unit => some [((), (1 : ℤ))])
          (fun (_ : List Vec3) (_ : Unit) (_ _ : Option (List ℝ)) =>
            (false, (), (⟨0, 0, 0⟩ : Vec3)))
          (fun _ : Unit => (⟨0, 0, 0, 1⟩ : Quat))
          (info_callback (arucoNodeInit 0 1 "") ⟨[], [], "cam"⟩) 5 7 () :=
  ⟨fun _ _ _ _ => rfl,
    solver_retval_ignored _ _ _ _ _ 5 7 () (fun _ _ _ _ => rfl)⟩

/-- Loop invariant: the pose list built for `aruco_poses` and the one built
for `aruco_markers` stay equal, and one marker id is appended per pose. -/
lemma foldl_processMarker_outputs {Corners RVec : Type} (rq : RVec → Quat) (w : Nat)
    (l : List ((Corners × ℤ) × (Bool × RVec × Vec3))) :
    ∀ acc : (ℤ → List (Vec3 × Quat)) × List Pose × List Pose × List ℤ,
      acc.2.1 = acc.2.2.1 → acc.2.2.2.length = acc.2.2.1.length →
      (l.foldl (processMarker rq w) acc).2.1 = (l.foldl (processMarker rq w) acc).2.2.1 ∧
        (l.foldl (processMarker rq w) acc).2.2.2.length
          = (l.foldl (processMarker rq w) acc).2.2.1.length := by
  induction l with
  | nil => intro acc h1 h2; exact ⟨h1, h2⟩
  | cons x xs ih =>
    intro acc h1 h2
    rw [List.foldl_cons]
    apply ih
    · unfold processMarker
      by_cases hx : x.1.2 ≠ 1 <;> simp [hx, h1]
    · unfold processMarker
      by_cases hx : x.1.2 ≠ 1 <;> simp [hx, h1, h2]

/-- C10: whenever a frame publishes, the pose sequence of `aruco_poses`
equals the pose sequence of `aruco_markers` element for element, and
`aruco_markers` carries exactly one marker id per pose (appended in lockstep
with the i-th pose, so the i-th id labels the i-th pose). -/
theorem published_outputs_consistent {Img Corners RVec : Type}
    (detect : Img → Option (List (Corners × ℤ)))
    (solvePnP : List Vec3 → Corners → Option (List ℝ) → Option (List ℝ) → Bool × RVec × Vec3)
    (rodriguesQuat : RVec → Quat)
    (s : NodeState) (t stamp : Nat) (img : Img) (pa : PoseArray) (mk : ArucoMarkers)
    (h : (image_callback detect solvePnP rodriguesQuat s t stamp img).2 = some (pa, mk)) :
    pa.poses = mk.poses ∧ mk.marker_ids.length = mk.poses.length := by
  unfold image_callback at h
  rcases hmsg : s.info_msg with _ | info
  · rw [hmsg] at h
    exact absurd h (by simp)
  · rw [hmsg] at h
    rcases hdet : detect img with _ | dets
    · rw [hdet] at h
      exact absurd h (by simp)
    · rw [hdet] at h
      simp only [Option.some_inj] at h
      obtain ⟨hpa, hmk⟩ := Prod.ext_iff.mp h
      simp only [] at hpa hmk
      subst hpa
      subst hmk
      exact foldl_processMarker_outputs rodriguesQuat s.window_size _ _ rfl rfl

theorem published_outputs_consistent_witness :
    ((image_callback (fun _ : Unit => some ([] : List (Unit × ℤ)))
          (fun _ _ _ _ => (true, (), (⟨0, 0, 0⟩ : Vec3)))
          (fun _ : Unit => (⟨0, 0, 0, 1⟩ : Quat))
          (info_callback (arucoNodeInit 0 1 "") ⟨[], [], "cam"⟩) 5 7 ()).2
        = some ((⟨"cam", 7, []⟩ : PoseArray), (⟨"cam", 7, [], []⟩ : ArucoMarkers))) ∧
      ((⟨"cam", 7, []⟩ : PoseArray).poses = (⟨"cam", 7, [], []⟩ : ArucoMarkers).poses ∧
        (⟨"cam", 7, [], []⟩ : ArucoMarkers).marker_ids.length
          = (⟨"cam", 7, [], []⟩ : ArucoMarkers).poses.length) :=
  ⟨rfl, published_outputs_consistent (fun _ : Unit => some ([] : List (Unit × ℤ)))
    (fun _ _ _ _ => (true, (), (⟨0, 0, 0⟩ : Vec3))) (fun _ : Unit => (⟨0, 0, 0, 1⟩ : Quat))
    (info_callback (arucoNodeInit 0 1 "") ⟨[], [], "cam"⟩) 5 7 () _ _ rfl⟩

/-- `image_callback` never touches the calibration fields or the camera-info
subscription: it writes only `last_publish_time` and `pose_history`. -/
lemma image_callback_preserves_calib {Img Corners RVec : Type}
    (detect : Img → Option (List (Corners × ℤ)))
    (solvePnP : List Vec3 → Corners → Option (List ℝ) → Option (List ℝ) → Bool × RVec × Vec3)
    (rodriguesQuat : RVec → Quat)
    (s : NodeState) (t stamp : Nat) (img : Img) :
    ((image_callback detect solvePnP rodriguesQuat s t stamp img).1).info_msg = s.info_msg ∧
      ((image_callback detect solvePnP rodriguesQuat s t stamp img).1).intrinsic_mat
        = s.intrinsic_mat ∧
      ((image_callback detect solvePnP rodriguesQuat s t stamp img).1).distortion
        = s.distortion ∧
      ((image_callback detect solvePnP rodriguesQuat s t stamp img).1).info_sub_alive
        = s.info_sub_alive := by
  unfold image_callback
  rcases hmsg : s.info_msg with _ | info
  · exact ⟨hmsg, rfl, rfl, rfl⟩
  · rcases hdet : detect img with _ | dets
    · exact ⟨rfl, rfl, rfl, rfl⟩
    · exact ⟨rfl, rfl, rfl, rfl⟩

/-- Once the camera-info subscription is destroyed, no event changes the
stored calibration, and the subscription never comes back. -/
lemma nodeStep_dead_preserves_calib {Img Corners RVec : Type}
    (detect : Img → Option (List (Corners × ℤ)))
    (solvePnP : List Vec3 → Corners → Option (List ℝ) → Option (List ℝ) → Bool × RVec × Vec3)
    (rodriguesQuat : RVec → Quat)
    (s : NodeState) (e : NodeEvent Img) (h : s.info_sub_alive = false) :
    (nodeStep detect solvePnP rodriguesQuat s e).info_msg = s.info_msg ∧
      (nodeStep detect solvePnP rodriguesQuat s e).intrinsic_mat = s.intrinsic_mat ∧
      (nodeStep detect solvePnP rodriguesQuat s e).distortion = s.distortion ∧
      (nodeStep detect solvePnP rodriguesQuat s e).info_sub_alive = false := by
  cases e with
  | info m => simp [nodeStep, h]
  | image t stamp img =>
    have hc := image_callback_preserves_calib detect solvePnP rodriguesQuat s t stamp img
    exact ⟨hc.1, hc.2.1, hc.2.2.1, by rw [show (nodeStep detect solvePnP rodriguesQuat s
      (NodeEvent.image t stamp img)) = (image_callback detect solvePnP rodriguesQuat
        s t stamp img).1 from rfl, hc.2.2.2, h]⟩

/-- After the subscription is destroyed, a whole run of events leaves the
calibration exactly as it was. -/
lemma nodeRun_dead_preserves_calib {Img Corners RVec : Type}
    (detect : Img → Option (List (Corners × ℤ)))
    (solvePnP : List Vec3 → Corners → Option (List ℝ) → Option (List ℝ) → Bool × RVec × Vec3)
    (rodriguesQuat : RVec → Quat)
    (evs : List (NodeEvent Img)) :
    ∀ s : NodeState, s.info_sub_alive = false →
      (nodeRun detect solvePnP rodriguesQuat s evs).info_msg = s.info_msg ∧
        (nodeRun detect solvePnP rodriguesQuat s evs).intrinsic_mat = s.intrinsic_mat ∧
        (nodeRun detect solvePnP rodriguesQuat s evs).distortion = s.distortion ∧
        (nodeRun detect solvePnP rodriguesQuat s evs).info_sub_alive = false := by
  induction evs with
  | nil => intro s h; exact ⟨rfl, rfl, rfl, h⟩
  | cons e es ih =>
    intro s h
    have hstep := nodeStep_dead_preserves_calib detect solvePnP rodriguesQuat s e h
    have hrun : nodeRun detect solvePnP rodriguesQuat s (e :: es)
        = nodeRun detect solvePnP rodriguesQuat (nodeStep detect solvePnP rodriguesQuat s e) es :=
      rfl
    have hrec := ih (nodeStep detect solvePnP rodriguesQuat s e) hstep.2.2.2
    rw [hrun]
    exact ⟨hrec.1.trans hstep.1, hrec.2.1.trans hstep.2.1, hrec.2.2.1.trans hstep.2.2.1,
      hrec.2.2.2⟩

/-- While no calibration message has arrived (and none is delivered), every
image frame is dropped unchanged, so the node's state stays as it was. -/
lemma nodeRun_awaiting_unchanged {Img Corners RVec : Type}
    (detect : Img → Option (List (Corners × ℤ)))
    (solvePnP : List Vec3 → Corners → Option (List ℝ) → Option (List ℝ) → Bool × RVec × Vec3)
    (rodriguesQuat : RVec → Quat)
    (evs : List (NodeEvent Img)) (h : ∀ e ∈ evs, ∀ m, e ≠ NodeEvent.info m) :
    ∀ s : NodeState, s.info_msg = none → nodeRun detect solvePnP rodriguesQuat s evs = s := by
  induction evs with
  | nil => intro s _; rfl
  | cons e es ih =>
    intro s hs
    have hstep : nodeStep detect solvePnP rodriguesQuat s e = s := by
      cases e with
      | info m => exact absurd rfl (h (NodeEvent.info m) (List.mem_cons_self _ _) m)
      | image t stamp img =>
        show (image_callback detect solvePnP rodriguesQuat s t stamp img).1 = s
        rw [image_callback_of_info_none detect solvePnP rodriguesQuat s t stamp img hs]
    have hrun : nodeRun detect solvePnP rodriguesQuat s (e :: es)
        = nodeRun detect solvePnP rodriguesQuat (nodeStep detect solvePnP rodriguesQuat s e) es :=
      rfl
    rw [hrun, hstep]
    exact ih (fun e' he' m => h e' (List.mem_cons_of_mem _ he') m) s hs

/-- C8: the calibration is captured exactly once, from the first camera-info
message observed, and never modified afterwards: for every run that starts at
`__init__`, sees no earlier camera-info message, receives `msg`, and then
processes arbitrary further events (more camera-info messages included), the
final intrinsic matrix and distortion coefficients are those of `msg`, and
the camera-info subscription stays destroyed. -/
theorem calibration_set_once {Img Corners RVec : Type}
    (detect : Img → Option (List (Corners × ℤ)))
    (solvePnP : List Vec3 → Corners → Option (List ℝ) → Option (List ℝ) → Bool × RVec × Vec3)
    (rodriguesQuat : RVec → Quat)
    (t0 : Nat) (ms : ℝ) (cf : String) (msg : CameraInfo) (pre post : List (NodeEvent Img))
    (hpre : ∀ e ∈ pre, ∀ m, e ≠ NodeEvent.info m) :
    (nodeRun detect solvePnP rodriguesQuat (arucoNodeInit t0 ms cf)
        (pre ++ NodeEvent.info msg :: post)).intrinsic_mat = some msg.k ∧
      (nodeRun detect solvePnP rodriguesQuat (arucoNodeInit t0 ms cf)
        (pre ++ NodeEvent.info msg :: post)).distortion = some msg.d ∧
      (nodeRun detect solvePnP rodriguesQuat (arucoNodeInit t0 ms cf)
        (pre ++ NodeEvent.info msg :: post)).info_msg = some msg ∧
      (nodeRun detect solvePnP rodriguesQuat (arucoNodeInit t0 ms cf)
        (pre ++ NodeEvent.info msg :: post)).info_sub_alive = false := by
  have hsplit : nodeRun detect solvePnP rodriguesQuat (arucoNodeInit t0 ms cf)
      (pre ++ NodeEvent.info msg :: post)
      = nodeRun detect solvePnP rodriguesQuat
        (nodeStep detect solvePnP rodriguesQuat
          (nodeRun detect solvePnP rodriguesQuat (arucoNodeInit t0 ms cf) pre)
          (NodeEvent.info msg)) post := by
    unfold nodeRun
    rw [List.foldl_append, List.foldl_cons]
  rw [hsplit, nodeRun_awaiting_unchanged detect solvePnP rodriguesQuat pre hpre _ rfl]
  have hinfo : nodeStep detect solvePnP rodriguesQuat (arucoNodeInit t0 ms cf)
      (NodeEvent.info msg) = info_callback (arucoNodeInit t0 ms cf) msg := by
    simp [nodeStep, arucoNodeInit]
  rw [hinfo]
  have hdead := nodeRun_dead_preserves_calib detect solvePnP rodriguesQuat post
    (info_callback (arucoNodeInit t0 ms cf) msg) rfl
  exact ⟨hdead.2.1, hdead.2.2.1, hdead.1, hdead.2.2.2⟩

theorem calibration_set_once_witness :
    (∀ e ∈ ([NodeEvent.image 1 2 ()] : List (NodeEvent Unit)), ∀ m, e ≠ NodeEvent.info m) ∧
      ((nodeRun (fun _ : Unit => (none : Option (List (Unit × ℤ))))
          (fun _ _ _ _ => (true, (), (⟨0, 0, 0⟩ : Vec3)))
          (fun _ : Unit => (⟨0, 0, 0, 1⟩ : Quat)) (arucoNodeInit 0 1 "")
          ([NodeEvent.image 1 2 ()] ++ NodeEvent.info ⟨[9], [8], "cam"⟩
            :: [NodeEvent.info ⟨[7], [6], "cam2"⟩])).intrinsic_mat = some [9] ∧
        (nodeRun (fun _ : Unit => (none : Option (List (Unit × ℤ))))
          (fun _ _ _ _ => (true, (), (⟨0, 0, 0⟩ : Vec3)))
          (fun _ : Unit => (⟨0, 0, 0, 1⟩ : Quat)) (arucoNodeInit 0 1 "")
          ([NodeEvent.image 1 2 ()] ++ NodeEvent.info ⟨[9], [8], "cam"⟩
            :: [NodeEvent.info ⟨[7], [6], "cam2"⟩])).distortion = some [8] ∧
        (nodeRun (fun _ : Unit => (none : Option (List (Unit × ℤ))))
          (fun _ _ _ _ => (true, (), (⟨0, 0, 0⟩ : Vec3)))
          (fun _ : Unit => (⟨0, 0, 0, 1⟩ : Quat)) (arucoNodeInit 0 1 "")
          ([NodeEvent.image 1 2 ()] ++ NodeEvent.info ⟨[9], [8], "cam"⟩
            :: [NodeEvent.info ⟨[7], [6], "cam2"⟩])).info_msg = some ⟨[9], [8], "cam"⟩ ∧
        (nodeRun (fun _ : Unit => (none : Option (List (Unit × ℤ))))
          (fun _ _ _ _ => (true, (), (⟨0, 0, 0⟩ : Vec3)))
          (fun _ : Unit => (⟨0, 0, 0, 1⟩ : Quat)) (arucoNodeInit 0 1 "")
          ([NodeEvent.image 1 2 ()] ++ NodeEvent.info ⟨[9], [8], "cam"⟩
            :: [NodeEvent.info ⟨[7], [6], "cam2"⟩])).info_sub_alive = false) :=
  ⟨by intro e he m; simp at he; subst he; exact fun hne => NodeEvent.noConfusion hne,
    calibration_set_once _ _ _ 0 1 "" ⟨[9], [8], "cam"⟩ [NodeEvent.image 1 2 ()]
      [NodeEvent.info ⟨[7], [6], "cam2"⟩]
      (by intro e he m; simp at he; subst he; exact fun hne => NodeEvent.noConfusion hne)⟩

/-- The squared norm is a sum of squares, hence nonnegative. -/
lemma Quat.dot_self_nonneg (q : Quat) : 0 ≤ Quat.dot q q :=
  add_nonneg (add_nonneg (add_nonneg (mul_self_nonneg q.x) (mul_self_nonneg q.y))
    (mul_self_nonneg q.z)) (mul_self_nonneg q.w)

/-- A nonzero quaternion has positive squared norm. -/
lemma Quat.dot_self_pos (q : Quat) (h : q ≠ Quat.zero) : 0 < Quat.dot q q := by
  obtain ⟨x, y, z, w⟩ := q
  rcases lt_or_eq_of_le (Quat.dot_self_nonneg ⟨x, y, z, w⟩) with hlt | heq
  · exact hlt
  · exfalso
    apply h
    unfold Quat.dot at heq
    dsimp only at heq
    have hx : x = 0 := by nlinarith [mul_self_nonneg y, mul_self_nonneg z, mul_self_nonneg w]
    have hy : y = 0 := by nlinarith [mul_self_nonneg x, mul_self_nonneg z, mul_self_nonneg w]
    have hz : z = 0 := by nlinarith [mul_self_nonneg x, mul_self_nonneg y, mul_self_nonneg w]
    have hw : w = 0 := by nlinarith [mul_self_nonneg x, mul_self_nonneg y, mul_self_nonneg z]
    unfold Quat.zero
    rw [hx, hy, hz, hw]

/-- A nonzero quaternion has positive Euclidean norm. -/
lemma Quat.norm_pos (q : Quat) (h : q ≠ Quat.zero) : 0 < Quat.norm q :=
  Real.sqrt_pos.mpr (Quat.dot_self_pos q h)

/-- Scaling a quaternion scales its norm by the absolute scale. -/
lemma Quat.norm_smul (c : ℝ) (q : Quat) : Quat.norm (Quat.smul c q) = |c| * Quat.norm q := by
  unfold Quat.norm Quat.smul Quat.dot
  rw [show c * q.x * (c * q.x) + c * q.y * (c * q.y) + c * q.z * (c * q.z) + c * q.w * (c * q.w)
      = c ^ 2 * (q.x * q.x + q.y * q.y + q.z * q.z + q.w * q.w) from by ring,
    Real.sqrt_mul (sq_nonneg c), Real.sqrt_sq_eq_abs]

/-- Dividing a nonzero quaternion by its own norm yields a unit vector. -/
lemma norm_renormalize (q : Quat) (h : q ≠ Quat.zero) : Quat.norm (renormalize q) = 1 := by
  unfold renormalize
  rw [Quat.norm_smul]
  have hpos := Quat.norm_pos q h
  rw [abs_of_pos (by positivity)]
  field_simp

/-- C9: for every non-empty history window whose pre-normalization blend is
nonzero, the orientation returned by smoothing has exactly unit Euclidean
norm (in exact real arithmetic), whatever the window's length or contents. -/
theorem smooth_orientation_unit_norm (window : List (Vec3 × Quat))
    (_h0 : window ≠ []) (h : blendQuats (window.map Prod.snd) ≠ Quat.zero) :
    Quat.norm (smooth window).2 = 1 := by
  show Quat.norm (smoothQuat (window.map Prod.snd)) = 1
  unfold smoothQuat
  exact norm_renormalize _ h

theorem smooth_orientation_unit_norm_witness :
    ([((⟨0, 0, 0⟩ : Vec3), (⟨0, 0, 0, 1⟩ : Quat))] ≠ []) ∧
      blendQuats ([((⟨0, 0, 0⟩ : Vec3), (⟨0, 0, 0, 1⟩ : Quat))].map Prod.snd) ≠ Quat.zero ∧
      Quat.norm (smooth [((⟨0, 0, 0⟩ : Vec3), (⟨0, 0, 0, 1⟩ : Quat))]).2 = 1 := by
  have hne : blendQuats ([((⟨0, 0, 0⟩ : Vec3), (⟨0, 0, 0, 1⟩ : Quat))].map Prod.snd)
      ≠ Quat.zero := by
    show (⟨0, 0, 0, 1⟩ : Quat) ≠ Quat.zero
    unfold Quat.zero
    simp
  exact ⟨by simp, hne, smooth_orientation_unit_norm _ (by simp) hne⟩

/-- C4: smoothing a window that holds exactly one pose returns that pose
unchanged — the position mean of one vector is that vector, the blend of one
quaternion is that quaternion, and renormalizing a unit quaternion (the data
model's orientations are unit) changes nothing, exactly. -/
theorem smooth_singleton_identity (p : Vec3 × Quat) (h : Quat.dot p.2 p.2 = 1) :
    smooth [p] = p := by
  obtain ⟨⟨vx, vy, vz⟩, q⟩ := p
  have hn : Quat.norm q = 1 := by
    unfold Quat.norm
    rw [show Quat.dot q q = 1 from h, Real.sqrt_one]
  show (meanPosition [⟨vx, vy, vz⟩], smoothQuat [q]) = _
  have h2 : smoothQuat [q] = q := by
    unfold smoothQuat renormalize
    rw [show blendQuats [q] = q from rfl, hn]
    cases q
    simp [Quat.smul]
  have h1 : meanPosition [⟨vx, vy, vz⟩] = ⟨vx, vy, vz⟩ := by
    unfold meanPosition
    simp
  rw [h1, h2]

theorem smooth_singleton_identity_witness :
    Quat.dot (⟨0, 0, 0, 1⟩ : Quat) (⟨0, 0, 0, 1⟩ : Quat) = 1 ∧
      smooth [((⟨1, 2, 3⟩ : Vec3), (⟨0, 0, 0, 1⟩ : Quat))]
        = ((⟨1, 2, 3⟩ : Vec3), (⟨0, 0, 0, 1⟩ : Quat)) := by
  have hd : Quat.dot (⟨0, 0, 0, 1⟩ : Quat) (⟨0, 0, 0, 1⟩ : Quat) = 1 := by
    unfold Quat.dot
    norm_num
  exact ⟨hd, smooth_singleton_identity _ hd⟩

/-- `unit_vector` fixes quaternions that are already unit. -/
lemma unit_vector_of_unit (q : Quat) (h : Quat.dot q q = 1) : unit_vector q = q := by
  unfold unit_vector Quat.norm
  rw [h, Real.sqrt_one]
  cases q
  simp [Quat.smul]

/-- `renormalize` fixes quaternions that are already unit. -/
lemma renormalize_of_unit (q : Quat) (h : Quat.dot q q = 1) : renormalize q = q := by
  unfold renormalize Quat.norm
  rw [h, Real.sqrt_one]
  cases q
  simp [Quat.smul]

/-- Scalar multiplication distributes over the quaternion sum. -/
lemma Quat.smul_add_smul (c : ℝ) (a b : Quat) :
    Quat.add (Quat.smul c a) (Quat.smul c b) = Quat.smul c (Quat.add a b) := by
  unfold Quat.add Quat.smul
  simp only [Quat.mk.injEq]
  refine ⟨by ring, by ring, by ring, by ring⟩

/-- For two orthogonal unit quaternions none of the library's epsilon guards
fires, the angle is arccos 0 = pi/2, and the halfway slerp is the normalized
midpoint: (sqrt 2 / 2) * (q0 + q1). -/
lemma slerp_half_orthogonal (q0 q1 : Quat) (h0 : Quat.dot q0 q0 = 1) (h1 : Quat.dot q1 q1 = 1)
    (hd : Quat.dot q0 q1 = 0) :
    quaternion_slerp q0 q1 (1 / 2) = Quat.smul (Real.sqrt 2 / 2) (Quat.add q0 q1) := by
  have c1 : ¬((1 : ℝ) / 2 = 0) := by norm_num
  have c2 : ¬((1 : ℝ) / 2 = 1) := by norm_num
  have c3 : ¬(|(|(0 : ℝ)|) - 1| < EPS) := by
    rw [abs_zero, zero_sub, abs_neg, abs_one]
    unfold EPS
    norm_num
  have c4 : ¬((0 : ℝ) < 0) := lt_irrefl 0
  have c5 : ¬(|Real.arccos 0| < EPS) := by
    rw [Real.arccos_zero, abs_of_pos (by positivity)]
    unfold EPS
    rw [not_lt]
    nlinarith [Real.pi_gt_three]
  simp only [quaternion_slerp, unit_vector_of_unit q0 h0, unit_vector_of_unit q1 h1, hd,
    if_neg c1, if_neg c2, if_neg c3, if_neg c4, if_neg c5]
  rw [Real.arccos_zero]
  rw [show ((1 : ℝ) - 1 / 2) * (Real.pi / 2) = Real.pi / 4 from by ring,
    show ((1 : ℝ) / 2) * (Real.pi / 2) = Real.pi / 4 from by ring,
    Real.sin_pi_div_four, Real.sin_pi_div_two, div_one, Quat.smul_add_smul]

lemma sqrt_two_mul_self : Real.sqrt 2 * Real.sqrt 2 = 2 :=
  Real.mul_self_sqrt (by norm_num)

/-- First blend step of the forward window (x-axis then y-axis). -/
lemma slerp_ex_ey : quaternion_slerp ⟨1, 0, 0, 0⟩ ⟨0, 1, 0, 0⟩ (1 / 2)
    = ⟨Real.sqrt 2 / 2, Real.sqrt 2 / 2, 0, 0⟩ := by
  rw [slerp_half_orthogonal _ _ (by unfold Quat.dot; norm_num)
    (by unfold Quat.dot; norm_num) (by unfold Quat.dot; norm_num)]
  unfold Quat.add Quat.smul
  simp only [Quat.mk.injEq]
  norm_num

lemma dot_mid_xy : Quat.dot ⟨Real.sqrt 2 / 2, Real.sqrt 2 / 2, 0, 0⟩
    ⟨Real.sqrt 2 / 2, Real.sqrt 2 / 2, 0, 0⟩ = 1 := by
  unfold Quat.dot
  nlinarith [sqrt_two_mul_self]

/-- Second blend step of the forward window. -/
lemma slerp_mid_ez : quaternion_slerp ⟨Real.sqrt 2 / 2, Real.sqrt 2 / 2, 0, 0⟩ ⟨0, 0, 1, 0⟩ (1 / 2)
    = ⟨1 / 2, 1 / 2, Real.sqrt 2 / 2, 0⟩ := by
  rw [slerp_half_orthogonal _ _ dot_mid_xy
    (by unfold Quat.dot; norm_num) (by unfold Quat.dot; norm_num)]
  unfold Quat.add Quat.smul
  simp only [Quat.mk.injEq]
  refine ⟨by nlinarith [sqrt_two_mul_self], by nlinarith [sqrt_two_mul_self], by norm_num,
    by norm_num⟩

/-- The forward window blends to (1/2, 1/2, sqrt 2 / 2, 0). -/
lemma blend_xyz_fwd : blendQuats [⟨1, 0, 0, 0⟩, ⟨0, 1, 0, 0⟩, ⟨0, 0, 1, 0⟩]
    = ⟨1 / 2, 1 / 2, Real.sqrt 2 / 2, 0⟩ := by
  show quaternion_slerp (quaternion_slerp ⟨1, 0, 0, 0⟩ ⟨0, 1, 0, 0⟩ (1 / 2)) ⟨0, 0, 1, 0⟩ (1 / 2)
    = _
  rw [slerp_ex_ey, slerp_mid_ez]

/-- First blend step of the reversed window (z-axis then y-axis). -/
lemma slerp_ez_ey : quaternion_slerp ⟨0, 0, 1, 0⟩ ⟨0, 1, 0, 0⟩ (1 / 2)
    = ⟨0, Real.sqrt 2 / 2, Real.sqrt 2 / 2, 0⟩ := by
  rw [slerp_half_orthogonal _ _ (by unfold Quat.dot; norm_num)
    (by unfold Quat.dot; norm_num) (by unfold Quat.dot; norm_num)]
  unfold Quat.add Quat.smul
  simp only [Quat.mk.injEq]
  norm_num

lemma dot_mid_yz : Quat.dot ⟨0, Real.sqrt 2 / 2, Real.sqrt 2 / 2, 0⟩
    ⟨0, Real.sqrt 2 / 2, Real.sqrt 2 / 2, 0⟩ = 1 := by
  unfold Quat.dot
  nlinarith [sqrt_two_mul_self]

/-- Second blend step of the reversed window. -/
lemma slerp_mid_ex : quaternion_slerp ⟨0, Real.sqrt 2 / 2, Real.sqrt 2 / 2, 0⟩ ⟨1, 0, 0, 0⟩ (1 / 2)
    = ⟨Real.sqrt 2 / 2, 1 / 2, 1 / 2, 0⟩ := by
  rw [slerp_half_orthogonal _ _ dot_mid_yz
    (by unfold Quat.dot; norm_num) (by unfold Quat.dot; norm_num)]
  unfold Quat.add Quat.smul
  simp only [Quat.mk.injEq]
  refine ⟨by norm_num, by nlinarith [sqrt_two_mul_self], by nlinarith [sqrt_two_mul_self],
    by norm_num⟩

/-- The reversed window blends to (sqrt 2 / 2, 1/2, 1/2, 0). -/
lemma blend_xyz_rev : blendQuats [⟨0, 0, 1, 0⟩, ⟨0, 1, 0, 0⟩, ⟨1, 0, 0, 0⟩]
    = ⟨Real.sqrt 2 / 2, 1 / 2, 1 / 2, 0⟩ := by
  show quaternion_slerp (quaternion_slerp ⟨0, 0, 1, 0⟩ ⟨0, 1, 0, 0⟩ (1 / 2)) ⟨1, 0, 0, 0⟩ (1 / 2)
    = _
  rw [slerp_ez_ey, slerp_mid_ex]

/-- C7: there is a window of 3 distinct unit quaternions on which the
orientation blend (fold from oldest to newest by slerp at parameter 0.5, then
renormalize) applied to the reversed window gives a different result than
applied to the original order: orientation smoothing is order-dependent. -/
theorem orientation_blend_order_dependent :
    ∃ a b c : Quat, Quat.dot a a = 1 ∧ Quat.dot b b = 1 ∧ Quat.dot c c = 1 ∧
      a ≠ b ∧ a ≠ c ∧ b ≠ c ∧ [c, b, a] = [a, b, c].reverse ∧
      smoothQuat [a, b, c] ≠ smoothQuat [c, b, a] := by
  refine ⟨⟨1, 0, 0, 0⟩, ⟨0, 1, 0, 0⟩, ⟨0, 0, 1, 0⟩,
    by unfold Quat.dot; norm_num, by unfold Quat.dot; norm_num, by unfold Quat.dot; norm_num,
    fun h => absurd (congrArg Quat.x h) (by norm_num),
    fun h => absurd (congrArg Quat.x h) (by norm_num),
    fun h => absurd (congrArg Quat.y h) (by norm_num),
    by simp, ?_⟩
  unfold smoothQuat
  rw [blend_xyz_fwd, blend_xyz_rev,
    renormalize_of_unit _ (by unfold Quat.dot; nlinarith [sqrt_two_mul_self]),
    renormalize_of_unit _ (by unfold Quat.dot; nlinarith [sqrt_two_mul_self])]
  intro heq
  have h1 : (1 : ℝ) / 2 = Real.sqrt 2 / 2 := congrArg Quat.x heq
  have hs : Real.sqrt 2 = 1 := by linarith
  have h2 := sqrt_two_mul_self
  rw [hs] at h2
  norm_num at h2
